import Mathlib

/-!
Verification of the provider-instance dispatch engine of the dual-mode
AI gateway (transparent passthrough + OpenAI-protocol translation).

The Go sources embedded here:
  * internal/instance/config.go        — configuration model and lookup
  * internal/handlers/transparent_handler.go — transparent passthrough
  * internal/handlers/protocol_handler.go    — protocol-mode dispatch

Modelling conventions:
  * Go strings are modelled as Lean `String`s; the request paths, header
    names and bodies handled by the gateway are ASCII, so Go's byte
    indexing coincides with character indexing.
  * Go maps iterated with `range` are modelled as association lists in
    some iteration order (Go's map order is arbitrary; the list order
    stands for the order the loop happened to observe).
  * External library calls (yaml.Unmarshal, json.Marshal/Unmarshal, the
    translator package, provider HTTP clients — none of which are part
    of the embedded sources) appear as explicit function parameters, so
    every theorem quantifies over their behaviour.
  * Fallible steps return `Except`/`Option`.
-/

namespace Gateway

/-! ### Configuration data model (internal/instance/config.go) -/

/-- `EndpointConfig` from config.go: a path-prefix binding with its
allowed HTTP methods. -/
structure EndpointConfig where
  path : String
  methods : List String
deriving Repr, DecidableEq

/-- `TransformationConfig` from config.go. -/
structure TransformationConfig where
  requestFrom : String
  requestTo : String
  responseFrom : String
  responseTo : String
deriving Repr, DecidableEq

/-- `AuthenticationConfig` from config.go (fields not used by the
verified code paths are omitted). -/
structure AuthenticationConfig where
  type : String
  header : String
  key : String
deriving Repr, DecidableEq

/-- `MetricsConfig` from config.go (labels omitted; they only feed the
metrics sink). -/
structure MetricsConfig where
  enabled : Bool
deriving Repr, DecidableEq

/-- `InstanceConfig` from config.go (descriptive/location fields that no
verified code path reads are omitted). -/
structure InstanceConfig where
  type : String
  mode : String
  protocol : String
  transformation : Option TransformationConfig
  authentication : AuthenticationConfig
  endpoints : List EndpointConfig
  metrics : MetricsConfig
deriving Repr, DecidableEq

/-- `Config` from config.go.  The Go `Instances` field is a
`map[string]InstanceConfig`; `range` iteration over it is modelled as an
association list in the order the loop observes. -/
structure Config where
  instances : List (String × InstanceConfig)
deriving Repr, DecidableEq

/-- Go's `strings.HasPrefix s pre`. -/
def strHasPrefix (s pre : String) : Bool :=
  pre.data.isPrefixOf s.data

/-- One instance matches a path when some configured endpoint path is a
prefix of it — the inner loop of `GetInstanceByPath`. -/
def instMatches (inst : InstanceConfig) (path : String) : Bool :=
  inst.endpoints.any fun e => strHasPrefix path e.path

/-- `Config.GetInstanceByPath` from config.go: scan the instances in
iteration order and return the first whose some endpoint path is a
prefix of the request path; error when none matches. -/
def getInstanceByPath (c : Config) (path : String) :
    Except String (InstanceConfig × String) :=
  match c.instances.find? (fun p => instMatches p.2 path) with
  | some p => Except.ok (p.2, p.1)
  | none => Except.error ("no instance found for path: " ++ path)

/-! ### C1: path lookup -/

/-- Helper: `find?` returns the first matching element. -/
theorem find?_first {α : Type} (p : α → Bool) :
    ∀ (l : List α) (a : α), l.find? p = some a →
      p a = true ∧ ∃ pre post, l = pre ++ a :: post ∧ ∀ x ∈ pre, p x = false := by
  intro l
  induction l with
  | nil => intro a h; simp [List.find?] at h
  | cons hd tl ih =>
    intro a h
    by_cases hp : p hd = true
    · simp [List.find?, hp] at h
      subst h
      exact ⟨hp, [], tl, rfl, by simp⟩
    · simp [List.find?, Bool.of_not_eq_true hp] at h
      obtain ⟨hpa, pre, post, rfl, hpre⟩ := ih a h
      refine ⟨hpa, hd :: pre, post, rfl, ?_⟩
      intro x hx
      rcases List.mem_cons.mp hx with rfl | hx
      · exact Bool.of_not_eq_true hp
      · exact hpre x hx

/-- C1 (amended): `GetInstanceByPath` returns an error exactly when no
configured endpoint path is a prefix of the request path, and on success
it returns the first instance, in map-iteration order, having some
matching endpoint prefix — not necessarily the owner of the longest
matching prefix. -/
theorem getInstanceByPath_first_match (c : Config) (path : String) :
    ((∀ p ∈ c.instances, instMatches p.2 path = false) →
       getInstanceByPath c path =
         Except.error ("no instance found for path: " ++ path)) ∧
    (∀ inst name, getInstanceByPath c path = Except.ok (inst, name) →
       instMatches inst path = true ∧
       ∃ pre post, c.instances = pre ++ (name, inst) :: post ∧
         ∀ q ∈ pre, instMatches q.2 path = false) := by
  constructor
  · intro hnone
    have hfind : c.instances.find? (fun p => instMatches p.2 path) = none := by
      rw [List.find?_eq_none]
      intro p hp
      simp [hnone p hp]
    simp [getInstanceByPath, hfind]
  · intro inst name hok
    unfold getInstanceByPath at hok
    cases hfind : c.instances.find? (fun p => instMatches p.2 path) with
    | none => rw [hfind] at hok; simp at hok
    | some q =>
      rw [hfind] at hok
      simp at hok
      obtain ⟨hq, pre, post, heq, hpre⟩ :=
        find?_first (fun p => instMatches p.2 path) c.instances q hfind
      obtain ⟨h1, h2⟩ := hok
      refine ⟨by rw [← h1]; exact hq, pre, post, ?_, ?_⟩
      · have hq2 : q = (name, inst) := by
          rw [← h1, ← h2]
        rw [← hq2]; exact heq
      · intro r hr; exact hpre r hr

/-- Closed instantiation of `getInstanceByPath_first_match`. -/
theorem getInstanceByPath_first_match_witness :
    ((∀ p ∈ (Config.mk [("a", ⟨"openai", "transparent", "", none,
          ⟨"api_key", "", ""⟩, [⟨"/transparent/openai", ["POST"]⟩],
          ⟨true⟩⟩)]).instances,
        instMatches p.2 "/nope" = false) →
       getInstanceByPath
         (Config.mk [("a", ⟨"openai", "transparent", "", none,
            ⟨"api_key", "", ""⟩, [⟨"/transparent/openai", ["POST"]⟩],
            ⟨true⟩⟩)]) "/nope" =
         Except.error ("no instance found for path: " ++ "/nope")) ∧
    (∀ inst name,
       getInstanceByPath
         (Config.mk [("a", ⟨"openai", "transparent", "", none,
            ⟨"api_key", "", ""⟩, [⟨"/transparent/openai", ["POST"]⟩],
            ⟨true⟩⟩)]) "/nope" = Except.ok (inst, name) →
       instMatches inst "/nope" = true ∧
       ∃ pre post,
         (Config.mk [("a", ⟨"openai", "transparent", "", none,
            ⟨"api_key", "", ""⟩, [⟨"/transparent/openai", ["POST"]⟩],
            ⟨true⟩⟩)]).instances = pre ++ (name, inst) :: post ∧
         ∀ q ∈ pre, instMatches q.2 "/nope" = false) :=
  getInstanceByPath_first_match _ "/nope"

/-- The two instances used to refute the longest-prefix reading of C1:
`shortInst` owns prefix `/t`, `longInst` owns the longer prefix `/t/x`. -/
def shortInst : InstanceConfig :=
  ⟨"openai", "transparent", "", none, ⟨"api_key", "", ""⟩,
    [⟨"/t", ["POST"]⟩], ⟨true⟩⟩

/-- The instance owning the longer prefix `/t/x`. -/
def longInst : InstanceConfig :=
  ⟨"bedrock", "transparent", "", none, ⟨"aws_sigv4", "", ""⟩,
    [⟨"/t/x", ["POST"]⟩], ⟨true⟩⟩

/-- A configuration whose iteration order lists the short-prefix owner
first. -/
def prefixConf : Config := ⟨[("a", shortInst), ("b", longInst)]⟩

/-- C1 counterexample: on path `/t/x/y` both `/t` (instance `a`) and the
longer `/t/x` (instance `b`) match, yet lookup returns instance `a`,
the owner of the shorter prefix — lookup is first-match in iteration
order, not longest-prefix. -/
theorem getInstanceByPath_not_longest :
    getInstanceByPath prefixConf "/t/x/y" = Except.ok (shortInst, "a") ∧
    ("b", longInst) ∈ prefixConf.instances ∧
    strHasPrefix "/t/x/y" "/t/x" = true ∧
    ("/t/x".length > "/t".length) ∧
    shortInst.endpoints.map (fun e => e.path) = ["/t"] :=
  ⟨rfl, by simp [prefixConf], rfl, by decide, rfl⟩

/-! ### HTTP / provider model (internal/providers, used by both handlers)

Headers are association lists with distinct keys, standing for the Go
`map[string]string` / `http.Header` maps.  Keys of an incoming
`http.Request.Header` are in MIME-canonical form — Go's `net/textproto`
canonicalises them while parsing the request — which is modelled by
`canonicalMIMEHeaderKey` below. -/

/-- `providers.ProviderRequest` (context and query parameters carry no
verified behaviour and are omitted / kept simple). -/
structure ProviderRequest where
  method : String
  path : String
  headers : List (String × String)
  queryParams : List (String × String)
  body : String
deriving Repr, DecidableEq

/-- `providers.ProviderResponse`. -/
structure ProviderResponse where
  statusCode : Nat
  headers : List (String × String)
  body : String
deriving Repr, DecidableEq

/-- `providers.ProviderError`. -/
structure ProviderError where
  statusCode : Nat
  code : String
  message : String
deriving Repr, DecidableEq

/-- Result of `provider.Invoke`: success, a typed `*ProviderError`, or
any other Go error value (the type-assertion-failure branch). -/
inductive InvokeResult where
  | ok (resp : ProviderResponse)
  | provErr (e : ProviderError)
  | otherErr (msg : String)
deriving Repr, DecidableEq

/-- `translator.ErrorDetail` (Go fields `Message`, `Type`, `Code`). -/
structure ErrorDetail where
  message : String
  errType : String
  code : String
deriving Repr, DecidableEq

/-- The canonical OpenAI chat-completions response object
(`translator.ChatCompletionResponse`); choices and usage carry no
behaviour verified here and are omitted. -/
structure ChatCompletionResponse where
  id : String
  created : Int
  model : String
deriving Repr, DecidableEq

/-- The canonical OpenAI chat-completions request
(`translator.ChatCompletionRequest`); only the fields the dispatch code
reads are kept. -/
structure ChatCompletionRequest where
  model : String
  stream : Bool
deriving Repr, DecidableEq

/-- The body a handler writes back to the caller: `c.JSON` of a
`gin.H\x7b"error": msg\x7d`, `c.JSON` of a canonical
`translator.ErrorResponse`, `c.Data` raw bytes, or `c.JSON` of a chat
response. -/
inductive ReplyBody where
  | ginError (message : String)
  | canonical (detail : ErrorDetail)
  | raw (contentType : String) (bytes : String)
  | chat (resp : ChatCompletionResponse)
deriving Repr, DecidableEq

/-- An HTTP reply of a handler: status, response headers set via
`c.Header`, and the body. -/
structure HttpReply where
  status : Nat
  headers : List (String × String)
  body : ReplyBody
deriving Repr, DecidableEq

/-- An incoming HTTP request as the handlers see it.  Header keys are in
MIME-canonical form (what `net/http` hands the handler). -/
structure HttpRequest where
  method : String
  path : String
  headers : List (String × String)
  queryParams : List (String × String)
  body : String
deriving Repr, DecidableEq

/-- Valid header-field byte per Go `net/textproto`. -/
def validHeaderFieldByte (c : Char) : Bool :=
  ('0' ≤ c && c ≤ '9') || ('a' ≤ c && c ≤ 'z') || ('A' ≤ c && c ≤ 'Z') ||
    "!#$%&'*+-.^_`|~".data.contains c

/-- The case-folding loop of Go's `textproto.CanonicalMIMEHeaderKey`:
uppercase the first letter and every letter following a dash, lowercase
the rest. -/
def canonLoop (upper : Bool) : List Char → List Char
  | [] => []
  | c :: rest =>
    let c' := if upper then c.toUpper else c.toLower
    c' :: canonLoop (c' = '-') rest

/-- Go's `textproto.CanonicalMIMEHeaderKey`: keys with an invalid byte
are returned unchanged, otherwise they are dash-canonicalised.  This is
the form in which `net/http` stores incoming request header keys. -/
def canonicalMIMEHeaderKey (s : String) : String :=
  if s.data.all validHeaderFieldByte then String.mk (canonLoop true s.data)
  else s

/-- `isAuthHeader` from transparent_handler.go: literal comparison of
the header name against a fixed list. -/
def isAuthHeader (headerName : String) : Bool :=
  ["Authorization", "X-API-Key", "x-api-key", "api-key", "X-Auth-Token"].contains
    headerName

/-- `getContentType` from transparent_handler.go. -/
def getContentType (headers : List (String × String)) : String :=
  match headers.find? (fun p => p.1 = "Content-Type") with
  | some p => p.2
  | none =>
    match headers.find? (fun p => p.1 = "content-type") with
    | some p => p.2
    | none => "application/json"

/-- The match condition of `extractProviderPath`:
`len(fullPath) > len(e.Path)` and the first `len(e.Path)` bytes of
`fullPath` equal `e.Path` — i.e. the endpoint path is a strict prefix. -/
def strictPrefixB (fullPath : String) (e : EndpointConfig) : Bool :=
  fullPath.data.length > e.path.data.length &&
    fullPath.data.take e.path.data.length == e.path.data

/-- `extractProviderPath` from transparent_handler.go: strip the first
endpoint path that is a strict prefix of the request path; if no
endpoint strictly prefixes the path — in particular when the path equals
the endpoint path exactly — return the path unchanged. -/
def extractProviderPath (fullPath : String) (endpoints : List EndpointConfig) :
    String :=
  match endpoints.find? (strictPrefixB fullPath) with
  | some e => String.mk (fullPath.data.drop e.path.data.length)
  | none => fullPath

/-- The provider request the transparent handler builds (body copied
verbatim, auth headers filtered out, path stripped of the endpoint
prefix). -/
def transparentBuiltReq (inst : InstanceConfig) (req : HttpRequest) :
    ProviderRequest :=
  { method := req.method
    path := extractProviderPath req.path inst.endpoints
    headers := req.headers.filter fun kv => !isAuthHeader kv.1
    queryParams := req.queryParams
    body := req.body }

/-- Outcome of a transparent dispatch: the reply written to the caller
and the provider request forwarded upstream (`none` when
`provider.Invoke` was never reached). -/
structure TransOutcome where
  reply : HttpReply
  forwarded : Option ProviderRequest
deriving Repr, DecidableEq

/-- `TransparentHandler.HandleRequest` from transparent_handler.go.
`registry` is the set of initialized provider types; `invoke` models the
provider client call. -/
def transparentHandle (conf : Config) (registry : List String)
    (invoke : ProviderRequest → InvokeResult) (req : HttpRequest) :
    TransOutcome :=
  match getInstanceByPath conf req.path with
  | Except.error _ =>
    { reply :=
        { status := 404
          headers := []
          body := ReplyBody.ginError "No provider instance configured for this path" }
      forwarded := none }
  | Except.ok (inst, _name) =>
    if inst.mode ≠ "transparent" then
      { reply :=
          { status := 400
            headers := []
            body := ReplyBody.ginError "This endpoint requires transparent mode" }
        forwarded := none }
    else if !registry.contains inst.type then
      { reply :=
          { status := 503
            headers := []
            body := ReplyBody.ginError ("Provider " ++ inst.type ++ " not available") }
        forwarded := none }
    else
      let preq := transparentBuiltReq inst req
      match invoke preq with
      | InvokeResult.provErr pe =>
        { reply :=
            { status := pe.statusCode
              headers := []
              body := ReplyBody.raw "application/json" pe.message }
          forwarded := some preq }
      | InvokeResult.otherErr _ =>
        { reply :=
            { status := 500
              headers := []
              body := ReplyBody.ginError "Provider request failed" }
          forwarded := some preq }
      | InvokeResult.ok presp =>
        { reply :=
            { status := presp.statusCode
              headers := presp.headers
              body := ReplyBody.raw (getContentType presp.headers) presp.body }
          forwarded := some preq }

/-! ### C2: transparent passthrough preserves status and body -/

/-- C2: whenever the transparent handler reaches a successful upstream
invocation, the reply's status code equals the upstream status code and
the reply body is the upstream body, byte for byte — the transparent
path never rewrites the body. -/
theorem transparent_passthrough (conf : Config) (registry : List String)
    (invoke : ProviderRequest → InvokeResult) (req : HttpRequest)
    (inst : InstanceConfig) (name : String) (presp : ProviderResponse)
    (hfind : getInstanceByPath conf req.path = Except.ok (inst, name))
    (hmode : inst.mode = "transparent")
    (hreg : registry.contains inst.type = true)
    (hinv : invoke (transparentBuiltReq inst req) = InvokeResult.ok presp) :
    (transparentHandle conf registry invoke req).reply.status = presp.statusCode ∧
    (transparentHandle conf registry invoke req).reply.body =
      ReplyBody.raw (getContentType presp.headers) presp.body := by
  have hmem : inst.type ∈ registry := by simpa using hreg
  unfold transparentHandle
  rw [hfind]
  simp [hmode, hmem, hinv]

/-- A transparent OpenAI instance used for concrete runs. -/
def wInst : InstanceConfig :=
  ⟨"openai", "transparent", "", none, ⟨"bearer_token", "", ""⟩,
    [⟨"/transparent/openai", ["POST"]⟩], ⟨true⟩⟩

/-- A configuration holding only `wInst`. -/
def wConf : Config := ⟨[("openai_us", wInst)]⟩

/-- A stub provider call answering 200/`UPSTREAM-BYTES` to everything. -/
def wInvoke : ProviderRequest → InvokeResult :=
  fun _ => InvokeResult.ok ⟨200, [("Content-Type", "application/json")], "UPSTREAM-BYTES"⟩

/-- A concrete POST request under the transparent prefix. -/
def wReq : HttpRequest :=
  ⟨"POST", "/transparent/openai/chat/completions",
    [("Content-Type", "application/json")], [], "req-body"⟩

/-- Closed instantiation of `transparent_passthrough`. -/
theorem transparent_passthrough_witness :
    (transparentHandle wConf ["openai"] wInvoke wReq).reply.status = 200 ∧
    (transparentHandle wConf ["openai"] wInvoke wReq).reply.body =
      ReplyBody.raw "application/json" "UPSTREAM-BYTES" :=
  transparent_passthrough wConf ["openai"] wInvoke wReq wInst "openai_us"
    ⟨200, [("Content-Type", "application/json")], "UPSTREAM-BYTES"⟩
    rfl rfl rfl rfl

/-! ### C3: auth-header stripping -/

/-- The request that exposes the header leak: the caller authenticates
with `X-API-Key`; Go's `net/http` stores the key in MIME-canonical form
`X-Api-Key`. -/
def leakReq : HttpRequest :=
  ⟨"POST", "/transparent/openai/chat/completions",
    [("Authorization", "Bearer caller-token"),
     ("X-Api-Key", "sk-caller-secret"),
     ("Content-Type", "application/json")], [], "req-body"⟩

/-- The provider request the handler forwards for `leakReq`. -/
def leakFwd : ProviderRequest := transparentBuiltReq wInst leakReq

/-- C3 refutation (code bug): `isAuthHeader` compares header names only
literally, while incoming keys are MIME-canonicalised, so a caller's
`X-API-Key` arrives as `X-Api-Key` and is forwarded to the provider;
likewise `api-key` arrives as `Api-Key`.  `Authorization` and
`X-Auth-Token` are their own canonical forms and are stripped. -/
theorem auth_header_leak :
    canonicalMIMEHeaderKey "X-API-Key" = "X-Api-Key" ∧
    canonicalMIMEHeaderKey "api-key" = "Api-Key" ∧
    canonicalMIMEHeaderKey "AUTHORIZATION" = "Authorization" ∧
    isAuthHeader "X-Api-Key" = false ∧
    isAuthHeader "Api-Key" = false ∧
    (transparentHandle wConf ["openai"] wInvoke leakReq).forwarded = some leakFwd ∧
    ("X-Api-Key", "sk-caller-secret") ∈ leakFwd.headers ∧
    ("Authorization", "Bearer caller-token") ∉ leakFwd.headers := by
  decide

/-! ### C8: allowed-methods list is not enforced -/

/-- C8 (amended): the dispatcher never consults an endpoint's allowed
`methods` list.  Even when the request method is absent from every
configured methods list of the matched transparent instance, the request
is forwarded upstream — there is no `method_not_allowed` rejection. -/
theorem methods_not_enforced (conf : Config) (registry : List String)
    (invoke : ProviderRequest → InvokeResult) (req : HttpRequest)
    (inst : InstanceConfig) (name : String)
    (hfind : getInstanceByPath conf req.path = Except.ok (inst, name))
    (hmode : inst.mode = "transparent")
    (hreg : registry.contains inst.type = true)
    (_hmethod : ∀ e ∈ inst.endpoints, req.method ∉ e.methods) :
    (transparentHandle conf registry invoke req).forwarded =
      some (transparentBuiltReq inst req) := by
  have hmem : inst.type ∈ registry := by simpa using hreg
  unfold transparentHandle
  rw [hfind]
  cases hi : invoke (transparentBuiltReq inst req) <;> simp [hmode, hmem, hi]

/-- A GET request under the transparent prefix whose endpoint allows
only POST. -/
def getReq : HttpRequest :=
  ⟨"GET", "/transparent/openai/chat/completions", [], [], ""⟩

/-- Closed instantiation of `methods_not_enforced`. -/
theorem methods_not_enforced_witness :
    (transparentHandle wConf ["openai"] wInvoke getReq).forwarded =
      some (transparentBuiltReq wInst getReq) :=
  methods_not_enforced wConf ["openai"] wInvoke getReq wInst "openai_us"
    rfl rfl rfl (by decide)

/-- C8 counterexample: the matched endpoint allows only `POST`, the
request method is `GET`, yet the handler forwards it upstream and
replies with the upstream status 200 — not with a 405
`method_not_allowed` rejection. -/
theorem method_mismatch_forwarded :
    ("GET" ∉ (wInst.endpoints.head?.map (fun e => e.methods)).getD []) ∧
    (transparentHandle wConf ["openai"] wInvoke getReq).forwarded =
      some (transparentBuiltReq wInst getReq) ∧
    (transparentHandle wConf ["openai"] wInvoke getReq).reply.status = 200 := by
  decide

/-! ### C9: provider-path extraction -/

/-- Helper: `find?` on a list whose prefix all fails the predicate and
whose next element satisfies it returns that element. -/
theorem find?_first_of_split {α : Type} (p : α → Bool) :
    ∀ (pre : List α) (e : α) (post : List α),
      (∀ x ∈ pre, p x = false) → p e = true →
      (pre ++ e :: post).find? p = some e := by
  intro pre
  induction pre with
  | nil => intro e post _ hp; simp [List.find?, hp]
  | cons hd tl ih =>
    intro e post hpre hp
    have hhd : p hd = false := hpre hd (by simp)
    simp only [List.cons_append, List.find?, hhd]
    exact ih e post (fun x hx => hpre x (by simp [hx])) hp

/-- C9: `extractProviderPath` (i) leaves the path unchanged when no
endpoint path is a strict prefix of it — in particular when the request
path equals the bound prefix exactly — and (ii) strips the first
endpoint path that strictly prefixes the request path, forwarding only
the remaining suffix. -/
theorem extractProviderPath_spec (full : String) (eps : List EndpointConfig) :
    ((∀ e ∈ eps, strictPrefixB full e = false) →
       extractProviderPath full eps = full) ∧
    (∀ pre e post, eps = pre ++ e :: post →
       (∀ e' ∈ pre, strictPrefixB full e' = false) →
       full.data.length > e.path.data.length →
       full.data.take e.path.data.length = e.path.data →
       extractProviderPath full eps =
         String.mk (full.data.drop e.path.data.length)) := by
  constructor
  · intro hnone
    have hfind : eps.find? (strictPrefixB full) = none := by
      rw [List.find?_eq_none]
      intro e he
      simp only [hnone e he, Bool.false_eq_true, not_false_eq_true]
    unfold extractProviderPath
    rw [hfind]
  · intro pre e post heq hpre hlen htake
    have hp : strictPrefixB full e = true := by
      simp only [strictPrefixB, Bool.and_eq_true, decide_eq_true_eq, beq_iff_eq]
      exact ⟨hlen, htake⟩
    have hfind := find?_first_of_split (strictPrefixB full) pre e post hpre hp
    unfold extractProviderPath
    rw [heq, hfind]

/-- Closed instantiation of `extractProviderPath_spec`: under the
endpoint prefix `/transparent/openai`, the path
`/transparent/openai/chat` is forwarded as `/chat`, while the exact path
`/transparent/openai` is forwarded unchanged. -/
theorem extractProviderPath_spec_witness :
    extractProviderPath "/transparent/openai/chat" wInst.endpoints = "/chat" ∧
    extractProviderPath "/transparent/openai" wInst.endpoints =
      "/transparent/openai" := by
  constructor
  · have h := (extractProviderPath_spec "/transparent/openai/chat"
      wInst.endpoints).2 [] ⟨"/transparent/openai", ["POST"]⟩ [] (by decide)
      (by intro e' he'; simp at he') (by decide) (by decide)
    exact h.trans (by decide)
  · exact (extractProviderPath_spec "/transparent/openai"
      wInst.endpoints).1 (by decide)

/-! ### Protocol handler (internal/handlers/protocol_handler.go) -/

/-- The hexadecimal digits used by the Go `uuid` package's `String()`
(lowercase). -/
def hexChar (i : Fin 16) : Char :=
  "0123456789abcdef".data.getD i.val '0'

/-- Hex encoding of one byte, as Go's `%02x` / uuid encoding produces
it.  Bytes are `Nat`s reduced mod 256. -/
def byteHex (b : Nat) : List Char :=
  [hexChar ⟨b / 16 % 16, Nat.mod_lt _ (by decide)⟩,
   hexChar ⟨b % 16, Nat.mod_lt _ (by decide)⟩]

/-- `uuid.UUID.String()`: the 16 random bytes of `uuid.New()` rendered
as lowercase hex with dashes after bytes 4, 6, 8 and 10. -/
def uuidString (bytes : List Nat) : String :=
  let hx := fun (l : List Nat) => (l.map byteHex).flatten
  String.mk (hx (bytes.take 4) ++ '-' ::
    (hx ((bytes.drop 4).take 2) ++ '-' ::
      (hx ((bytes.drop 6).take 2) ++ '-' ::
        (hx ((bytes.drop 8).take 2) ++ '-' :: hx (bytes.drop 10)))))

/-- `fmt.Sprintf("chatcmpl-%s", uuid.New().String()[:8])` from
handleOpenAIProtocol. -/
def mkRequestID (uuidBytes : List Nat) : String :=
  "chatcmpl-" ++ String.mk ((uuidString uuidBytes).data.take 8)

/-- Lowercase hex digit, as in the character class `[0-9a-f]`. -/
def isLowerHexDigit (c : Char) : Bool :=
  ('0' ≤ c && c ≤ '9') || ('a' ≤ c && c ≤ 'f')

/-- Decidable matcher for the spec's regex `^chatcmpl-[0-9a-f]\x7b8\x7d$`. -/
def matchesChatcmplPattern (s : String) : Bool :=
  (s.data.take 9 == "chatcmpl-".data) && s.data.length == 17 &&
    (s.data.drop 9).all isLowerHexDigit

/-- The native Bedrock Converse response (`translator.ConverseResponse`);
its shape lives in the translator package outside the embedded sources,
so it is kept abstract as the raw JSON it was decoded from. -/
structure ConverseResponse where
  raw : String
deriving Repr, DecidableEq

/-- The collaborators of `handleOpenAIProtocol` that live outside the
embedded sources (JSON codec, translator package, provider client,
random source, clock), passed explicitly so the theorems quantify over
their behaviour:
* `parseReq` — `c.ShouldBindJSON` into a `ChatCompletionRequest`;
* `marshalReq` — `json.Marshal` of the request (total on this shape);
* `translateToConverse` — `translator.TranslateOpenAIToConverseAPI`;
* `parseConverse` / `translateConverseToOpenAI` — Bedrock response
  decoding and `translator.TranslateConverseToOpenAI`;
* `parseChatResponse` — `json.Unmarshal` into a chat response;
* `invoke` — `provider.Invoke`;
* `uuidBytes` — the 16 random bytes behind `uuid.New()`;
* `startTimeUnix` — `startTime.Unix()` taken at dispatch start. -/
structure ProtocolEnv where
  parseReq : String → Option ChatCompletionRequest
  marshalReq : ChatCompletionRequest → String
  translateToConverse : ChatCompletionRequest → Except String ProviderRequest
  parseConverse : String → Option ConverseResponse
  translateConverseToOpenAI :
    ConverseResponse → String → String → ChatCompletionResponse
  parseChatResponse : String → Option ChatCompletionResponse
  invoke : ProviderRequest → InvokeResult
  uuidBytes : List Nat
  startTimeUnix : Int

/-- The passthrough provider request built in the `nil`-transformation,
`"openai"` and `default` branches of handleOpenAIProtocol (all three are
textually identical in the source). -/
def passthroughReq (env : ProtocolEnv) (creq : ChatCompletionRequest) :
    ProviderRequest :=
  { method := "POST"
    path := "/chat/completions"
    headers := [("Content-Type", "application/json")]
    queryParams := []
    body := env.marshalReq creq }

/-- Outcome of a protocol dispatch: reply plus the provider request
forwarded upstream (`none` when `provider.Invoke` was never reached). -/
structure ProtoOutcome where
  reply : HttpReply
  forwarded : Option ProviderRequest
deriving Repr, DecidableEq

/-- `handleProviderError` from protocol_handler.go. -/
def handleProviderErrorReply (pe : ProviderError) : HttpReply :=
  { status := if pe.statusCode = 0 then 500 else pe.statusCode
    headers := []
    body := ReplyBody.canonical ⟨pe.message, "provider_error", pe.code⟩ }

/-- The transformation `switch` of handleOpenAIProtocol building the
provider request: the `bedrock_converse` direction calls the translator;
the `"openai"` and `default` branches build the same passthrough request
as the `nil`-transformation branch. -/
def buildProtoReq (env : ProtocolEnv) (inst : InstanceConfig)
    (creq : ChatCompletionRequest) : Except String ProviderRequest :=
  match inst.transformation with
  | none => Except.ok (passthroughReq env creq)
  | some t =>
    if t.requestTo = "bedrock_converse" then env.translateToConverse creq
    else Except.ok (passthroughReq env creq)

/-- The response-parsing step of handleOpenAIProtocol: translate from
Bedrock Converse when configured, otherwise decode the body as an
OpenAI-shaped response. -/
def parseProtoResp (env : ProtocolEnv) (inst : InstanceConfig)
    (creq : ChatCompletionRequest) (presp : ProviderResponse) :
    Option ChatCompletionResponse :=
  match inst.transformation with
  | some t =>
    if t.responseFrom = "bedrock_converse" then
      (env.parseConverse presp.body).map fun cr =>
        env.translateConverseToOpenAI cr creq.model (mkRequestID env.uuidBytes)
    else env.parseChatResponse presp.body
  | none => env.parseChatResponse presp.body

/-- `handleOpenAIProtocol` from protocol_handler.go. -/
def handleOpenAIProtocol (env : ProtocolEnv) (inst : InstanceConfig)
    (req : HttpRequest) : ProtoOutcome :=
  match env.parseReq req.body with
  | none =>
    { reply :=
        { status := 400
          headers := []
          body := ReplyBody.canonical
            ⟨"Invalid request body", "invalid_request_error", "invalid_json"⟩ }
      forwarded := none }
  | some creq =>
    match buildProtoReq env inst creq with
    | Except.error e =>
      { reply :=
          { status := 400
            headers := []
            body := ReplyBody.canonical
              ⟨"Failed to translate request: " ++ e, "invalid_request_error",
                "translation_failed"⟩ }
        forwarded := none }
    | Except.ok preq =>
      match env.invoke preq with
      | InvokeResult.provErr pe =>
        { reply := handleProviderErrorReply pe, forwarded := some preq }
      | InvokeResult.otherErr _ =>
        { reply :=
            { status := 500
              headers := []
              body := ReplyBody.canonical
                ⟨"Internal server error", "internal_error", "unknown_error"⟩ }
          forwarded := some preq }
      | InvokeResult.ok presp =>
        match parseProtoResp env inst creq presp with
        | none =>
          { reply :=
              { status := 500
                headers := []
                body := ReplyBody.canonical
                  ⟨"Failed to parse provider response", "internal_error",
                    "response_parse_error"⟩ }
            forwarded := some preq }
        | some oresp =>
          { reply :=
              { status := 200
                headers := []
                body := ReplyBody.chat
                  { oresp with
                    id := mkRequestID env.uuidBytes
                    created := env.startTimeUnix } }
            forwarded := some preq }

/-- `ProtocolHandler.HandleRequest` from protocol_handler.go. -/
def protocolHandle (conf : Config) (registry : List String)
    (env : ProtocolEnv) (req : HttpRequest) : ProtoOutcome :=
  match getInstanceByPath conf req.path with
  | Except.error _ =>
    { reply :=
        { status := 404
          headers := []
          body := ReplyBody.canonical
            ⟨"No provider instance configured for this path",
              "invalid_request_error", "instance_not_found"⟩ }
      forwarded := none }
  | Except.ok (inst, _name) =>
    if inst.mode ≠ "protocol" then
      { reply :=
          { status := 400
            headers := []
            body := ReplyBody.canonical
              ⟨"This endpoint requires protocol mode", "invalid_request_error",
                "invalid_mode"⟩ }
        forwarded := none }
    else if !registry.contains inst.type then
      { reply :=
          { status := 503
            headers := []
            body := ReplyBody.canonical
              ⟨"Provider " ++ inst.type ++ " not available", "service_error",
                "provider_unavailable"⟩ }
        forwarded := none }
    else if inst.protocol = "openai" then
      handleOpenAIProtocol env inst req
    else
      { reply :=
          { status := 501
            headers := []
            body := ReplyBody.canonical
              ⟨"Protocol " ++ inst.protocol ++ " not yet implemented",
                "not_implemented_error", "protocol_not_implemented"⟩ }
        forwarded := none }

/-! ### C6: canonical response id and created stamp -/

/-- Every hex digit emitted by `hexChar` matches `[0-9a-f]`. -/
theorem hexChar_lowerHex : ∀ i : Fin 16, isLowerHexDigit (hexChar i) = true := by
  decide

/-- Both characters of a byte's hex encoding match `[0-9a-f]`. -/
theorem byteHex_lowerHex (b : Nat) : (byteHex b).all isLowerHexDigit = true := by
  simp [byteHex, hexChar_lowerHex]

/-- Every character of a hex-encoded byte list matches `[0-9a-f]`. -/
theorem flatten_byteHex_lowerHex (l : List Nat) :
    ((l.map byteHex).flatten).all isLowerHexDigit = true := by
  induction l with
  | nil => rfl
  | cons b rest ih =>
    simp only [List.map_cons, List.flatten_cons, List.all_append]
    rw [byteHex_lowerHex, ih]
    rfl

/-- `all` is preserved by `take`. -/
theorem all_take {α : Type} (p : α → Bool) (l : List α) (n : Nat)
    (h : l.all p = true) : (l.take n).all p = true := by
  rw [List.all_eq_true] at h ⊢
  intro x hx
  exact h x ((List.take_sublist n l).subset hx)

/-- The hex encoding of the first four uuid bytes is eight characters
long. -/
theorem hx4_length (l : List Nat) (h : 4 ≤ l.length) :
    (((l.take 4).map byteHex).flatten).length = 8 := by
  match l with
  | b0 :: b1 :: b2 :: b3 :: rest => simp [byteHex]
  | [] => simp at h
  | [_] => simp at h
  | [_, _] => simp at h
  | [_, _, _] => simp at h

/-- The first eight characters of `uuid.String()` are the hex encoding
of the first four random bytes. -/
theorem uuidString_take8 (bytes : List Nat) (h : 4 ≤ bytes.length) :
    (uuidString bytes).data.take 8 = ((bytes.take 4).map byteHex).flatten := by
  unfold uuidString
  have hlen := hx4_length bytes h
  calc (((bytes.take 4).map byteHex).flatten ++ '-' :: _).take 8
      = ((bytes.take 4).map byteHex).flatten.take 8 := by
        rw [List.take_append_of_le_length (by rw [hlen])]
    _ = ((bytes.take 4).map byteHex).flatten := by
        rw [List.take_of_length_le (by rw [hlen])]

/-- The generated request id matches `^chatcmpl-[0-9a-f]\x7b8\x7d$`. -/
theorem mkRequestID_matches (bytes : List Nat) (h : 4 ≤ bytes.length) :
    matchesChatcmplPattern (mkRequestID bytes) = true := by
  have h8 := uuidString_take8 bytes h
  have hlen := hx4_length bytes h
  have hall := all_take isLowerHexDigit
    ((bytes.take 4).map byteHex).flatten 8
    (flatten_byteHex_lowerHex (bytes.take 4))
  unfold matchesChatcmplPattern mkRequestID
  have hdata : ("chatcmpl-" ++ String.mk ((uuidString bytes).data.take 8)).data
      = "chatcmpl-".data ++ (uuidString bytes).data.take 8 := by
    simp [String.data_append]
  rw [hdata, h8]
  rw [Bool.and_eq_true, Bool.and_eq_true]
  refine ⟨⟨?_, ?_⟩, ?_⟩
  · rw [show (9 : Nat) = ("chatcmpl-".data).length from rfl, List.take_left]
    exact beq_self_eq_true _
  · rw [List.length_append, hlen]
    decide
  · rw [show (9 : Nat) = ("chatcmpl-".data).length from rfl, List.drop_left]
    exact flatten_byteHex_lowerHex _

/-- C6: every successful (HTTP 200, chat body) protocol-mode reply
carries the freshly generated id `chatcmpl-<8 lowercase hex chars>` —
the upstream provider's own id is overwritten, never preserved — and its
`created` field is the dispatcher's request-start timestamp in epoch
seconds. -/
theorem protocol_id_and_created (conf : Config) (registry : List String)
    (env : ProtocolEnv) (req : HttpRequest) (r : ChatCompletionResponse)
    (hlen : env.uuidBytes.length = 16)
    (hchat : (protocolHandle conf registry env req).reply.body =
      ReplyBody.chat r) :
    r.id = mkRequestID env.uuidBytes ∧
    matchesChatcmplPattern r.id = true ∧
    r.created = env.startTimeUnix := by
  have hmain : r.id = mkRequestID env.uuidBytes ∧ r.created = env.startTimeUnix := by
    unfold protocolHandle at hchat
    split at hchat
    · simp at hchat
    · split at hchat
      · simp at hchat
      · split at hchat
        · simp at hchat
        · split at hchat
          · unfold handleOpenAIProtocol at hchat
            split at hchat
            · simp at hchat
            · split at hchat
              · simp at hchat
              · split at hchat
                · simp [handleProviderErrorReply] at hchat
                · simp at hchat
                · split at hchat
                  · simp at hchat
                  · have h2 := (ReplyBody.chat.inj hchat).symm
                    subst h2
                    exact ⟨rfl, rfl⟩
          · simp at hchat
  exact ⟨hmain.1, by rw [hmain.1]; exact mkRequestID_matches _ (by omega),
    hmain.2⟩

/-- A protocol-mode OpenAI instance. -/
def pInst : InstanceConfig :=
  ⟨"openai", "protocol", "openai",
    some ⟨"openai", "openai", "openai", "openai"⟩,
    ⟨"bearer_token", "", ""⟩, [⟨"/openai/openai_main", ["POST"]⟩], ⟨true⟩⟩

/-- A configuration holding only `pInst`. -/
def pConf : Config := ⟨[("openai_main", pInst)]⟩

/-- A POST request under the protocol prefix. -/
def pReq : HttpRequest :=
  ⟨"POST", "/openai/openai_main/chat/completions", [], [],
    "\x7b\"model\":\"m\"\x7d"⟩

/-- A concrete protocol environment: the upstream replies 200 with a
response carrying its own id `upstream-id`, which the handler must
overwrite. -/
def wPEnv : ProtocolEnv :=
  { parseReq := fun _ => some ⟨"m", false⟩
    marshalReq := fun _ => "MARSHALLED"
    translateToConverse := fun _ => Except.error "unused"
    parseConverse := fun _ => none
    translateConverseToOpenAI := fun _ _ _ => ⟨"t", 0, "m"⟩
    parseChatResponse := fun _ => some ⟨"upstream-id", 999, "m"⟩
    invoke := fun _ => InvokeResult.ok ⟨200, [], "UPSTREAM"⟩
    uuidBytes := [0, 1, 2, 3, 4, 5, 6, 7, 8, 9, 10, 11, 12, 13, 14, 15]
    startTimeUnix := 1700000000 }

/-- The chat response `wPEnv` produces: upstream id replaced by
`chatcmpl-00010203`, `created` stamped with the dispatch start. -/
def wR : ChatCompletionResponse := ⟨"chatcmpl-00010203", 1700000000, "m"⟩

/-- Closed instantiation of `protocol_id_and_created`. -/
theorem protocol_id_and_created_witness :
    wPEnv.uuidBytes.length = 16 ∧
    (protocolHandle pConf ["openai"] wPEnv pReq).reply.body =
      ReplyBody.chat wR ∧
    (wR.id = mkRequestID wPEnv.uuidBytes ∧
      matchesChatcmplPattern wR.id = true ∧
      wR.created = wPEnv.startTimeUnix) :=
  ⟨rfl, by decide,
    protocol_id_and_created pConf ["openai"] wPEnv pReq wR rfl (by decide)⟩

/-! ### C7: unknown-path replies -/

/-- C7 (amended): a request whose path no configured endpoint prefix
matches yields HTTP 404 from both handlers without contacting any
provider; the protocol handler sends the canonical error body with code
`instance_not_found` but `type` `invalid_request_error` (not
`not_found`), and the transparent handler sends a plain
`\x7b"error": <string>\x7d` body, not the canonical error object. -/
theorem notfound_replies (conf : Config) (registry : List String)
    (penv : ProtocolEnv) (invoke : ProviderRequest → InvokeResult)
    (req : HttpRequest)
    (h : ∀ p ∈ conf.instances, instMatches p.2 req.path = false) :
    (protocolHandle conf registry penv req).reply.status = 404 ∧
    (protocolHandle conf registry penv req).reply.body =
      ReplyBody.canonical ⟨"No provider instance configured for this path",
        "invalid_request_error", "instance_not_found"⟩ ∧
    (protocolHandle conf registry penv req).forwarded = none ∧
    (transparentHandle conf registry invoke req).reply.status = 404 ∧
    (transparentHandle conf registry invoke req).reply.body =
      ReplyBody.ginError "No provider instance configured for this path" ∧
    (transparentHandle conf registry invoke req).forwarded = none := by
  have hfind : conf.instances.find? (fun p => instMatches p.2 req.path) = none := by
    rw [List.find?_eq_none]
    intro p hp
    simp [h p hp]
  have herr : getInstanceByPath conf req.path =
      Except.error ("no instance found for path: " ++ req.path) := by
    unfold getInstanceByPath
    rw [hfind]
  unfold protocolHandle transparentHandle
  rw [herr]
  exact ⟨rfl, rfl, rfl, rfl, rfl, rfl⟩

/-- The unknown path of spec scenario F. -/
def missReq : HttpRequest := ⟨"GET", "/does-not-exist", [], [], ""⟩

/-- Closed instantiation of `notfound_replies`. -/
theorem notfound_replies_witness :
    (protocolHandle wConf ["openai"] wPEnv missReq).reply.status = 404 ∧
    (protocolHandle wConf ["openai"] wPEnv missReq).reply.body =
      ReplyBody.canonical ⟨"No provider instance configured for this path",
        "invalid_request_error", "instance_not_found"⟩ ∧
    (protocolHandle wConf ["openai"] wPEnv missReq).forwarded = none ∧
    (transparentHandle wConf ["openai"] wInvoke missReq).reply.status = 404 ∧
    (transparentHandle wConf ["openai"] wInvoke missReq).reply.body =
      ReplyBody.ginError "No provider instance configured for this path" ∧
    (transparentHandle wConf ["openai"] wInvoke missReq).forwarded = none :=
  notfound_replies wConf ["openai"] wPEnv wInvoke missReq (by decide)

/-- C7 counterexample: on an unmatched path the protocol handler's 404
body has `error.type = "invalid_request_error"`, not the `"not_found"`
taxon the claim states, and the transparent handler's 404 body is not
the canonical error object at all. -/
theorem notfound_type_mismatch :
    (protocolHandle wConf ["openai"] wPEnv missReq).reply.status = 404 ∧
    (protocolHandle wConf ["openai"] wPEnv missReq).reply.body =
      ReplyBody.canonical ⟨"No provider instance configured for this path",
        "invalid_request_error", "instance_not_found"⟩ ∧
    ("invalid_request_error" ≠ "not_found") ∧
    (transparentHandle wConf ["openai"] wInvoke missReq).reply.body =
      ReplyBody.ginError "No provider instance configured for this path" := by
  refine ⟨rfl, rfl, by decide, rfl⟩

/-! ### C10: non-openai protocol tags -/

/-- C10 (amended): for a request matched to a protocol-mode instance
whose protocol tag is not `openai`, the provider is never invoked; the
reply is 501 `protocol_not_implemented` when the instance's provider
type is in the initialized-provider registry, and 503
`provider_unavailable` when it is not (the provider lookup precedes the
protocol check). -/
theorem protocol_tag_not_implemented (conf : Config) (registry : List String)
    (penv : ProtocolEnv) (req : HttpRequest) (inst : InstanceConfig)
    (name : String)
    (hfind : getInstanceByPath conf req.path = Except.ok (inst, name))
    (hmode : inst.mode = "protocol")
    (hproto : inst.protocol ≠ "openai") :
    (protocolHandle conf registry penv req).forwarded = none ∧
    (registry.contains inst.type = true →
      (protocolHandle conf registry penv req).reply.status = 501 ∧
      (protocolHandle conf registry penv req).reply.body =
        ReplyBody.canonical ⟨"Protocol " ++ inst.protocol ++ " not yet implemented",
          "not_implemented_error", "protocol_not_implemented"⟩) ∧
    (registry.contains inst.type = false →
      (protocolHandle conf registry penv req).reply.status = 503 ∧
      (protocolHandle conf registry penv req).reply.body =
        ReplyBody.canonical ⟨"Provider " ++ inst.type ++ " not available",
          "service_error", "provider_unavailable"⟩) := by
  unfold protocolHandle
  rw [hfind]
  dsimp only
  have h1 : ¬(inst.mode ≠ "protocol") := by simp [hmode]
  rw [if_neg h1]
  cases hc : registry.contains inst.type with
  | false =>
    rw [if_pos (show ((!false : Bool) = true) from rfl)]
    refine ⟨rfl, ?_, fun _ => ⟨rfl, rfl⟩⟩
    intro hcontra
    simp at hcontra
  | true =>
    rw [if_neg (show ¬((!true : Bool) = true) from by simp)]
    rw [if_neg hproto]
    refine ⟨rfl, fun _ => ⟨rfl, rfl⟩, ?_⟩
    intro hcontra
    simp at hcontra

/-- A protocol-mode instance with a non-openai protocol tag whose
provider type is not initialized. -/
def anthInst : InstanceConfig :=
  ⟨"bedrock", "protocol", "anthropic",
    some ⟨"anthropic", "bedrock_converse", "bedrock_converse", "anthropic"⟩,
    ⟨"aws_sigv4", "", ""⟩, [⟨"/anthropic/b1", ["POST"]⟩], ⟨true⟩⟩

/-- A configuration holding only `anthInst`. -/
def anthConf : Config := ⟨[("b1", anthInst)]⟩

/-- A request matching `anthInst`. -/
def anthReq : HttpRequest := ⟨"POST", "/anthropic/b1/messages", [], [], ""⟩

/-- C10 counterexample: the request is matched to a protocol-mode
instance whose protocol tag `anthropic` is not `openai`, yet — because
the instance's provider type is not in the provider registry — the
handler replies 503 `provider_unavailable`, not 501
`protocol_not_implemented`.  The provider is still never invoked. -/
theorem protocol_tag_503_not_501 :
    getInstanceByPath anthConf anthReq.path = Except.ok (anthInst, "b1") ∧
    anthInst.mode = "protocol" ∧
    anthInst.protocol ≠ "openai" ∧
    (protocolHandle anthConf [] wPEnv anthReq).reply.status = 503 ∧
    (protocolHandle anthConf [] wPEnv anthReq).reply.status ≠ 501 ∧
    (protocolHandle anthConf [] wPEnv anthReq).forwarded = none := by
  refine ⟨rfl, rfl, by decide, rfl, by decide, rfl⟩

/-- Closed instantiation of `protocol_tag_not_implemented` (with the
provider type initialized, giving the 501 reply). -/
theorem protocol_tag_not_implemented_witness :
    (protocolHandle anthConf ["bedrock"] wPEnv anthReq).forwarded = none ∧
    ((["bedrock"] : List String).contains anthInst.type = true →
      (protocolHandle anthConf ["bedrock"] wPEnv anthReq).reply.status = 501 ∧
      (protocolHandle anthConf ["bedrock"] wPEnv anthReq).reply.body =
        ReplyBody.canonical
          ⟨"Protocol " ++ anthInst.protocol ++ " not yet implemented",
            "not_implemented_error", "protocol_not_implemented"⟩) ∧
    ((["bedrock"] : List String).contains anthInst.type = false →
      (protocolHandle anthConf ["bedrock"] wPEnv anthReq).reply.status = 503 ∧
      (protocolHandle anthConf ["bedrock"] wPEnv anthReq).reply.body =
        ReplyBody.canonical ⟨"Provider " ++ anthInst.type ++ " not available",
          "service_error", "provider_unavailable"⟩) :=
  protocol_tag_not_implemented anthConf ["bedrock"] wPEnv anthReq anthInst "b1"
    rfl rfl (by decide)

/-! ### Configuration loading (LoadConfig + os.ExpandEnv)

`LoadConfig` reads the file, runs `os.ExpandEnv` over the raw text and
hands the result to `yaml.Unmarshal`.  `os.ExpandEnv` is Go standard
library code; it is embedded faithfully below (`getShellName`,
`expandLoop`).  The YAML decoder is an external library and appears as a
`parse` parameter. -/

/-- `isShellSpecialVar` from Go `os.Expand`. -/
def isShellSpecialVar (c : Char) : Bool :=
  c = '*' || c = '#' || c = '$' || c = '@' || c = '!' || c = '?' ||
    ('0' ≤ c && c ≤ '9')

/-- `isAlphaNum` from Go `os.Expand`. -/
def isAlphaNum (c : Char) : Bool :=
  c = '_' || ('0' ≤ c && c ≤ '9') || ('a' ≤ c && c ≤ 'z') ||
    ('A' ≤ c && c ≤ 'Z')

/-- The brace-scanning arm of Go's `getShellName`: `s` is the text after
`$\x7b`; scan to the closing brace.  Returns (name, width), the width
counted from the character after the `$`. -/
def scanBraceName (rest : List Char) : List Char × Nat :=
  match rest.findIdx? (fun c => c = '\x7d') with
  | none => ([], 1)
  | some 0 => ([], 2)
  | some j => (rest.take j, j + 2)

/-- Go's `getShellName` applied to the text following a `$`.  A name in
braces runs to the closing brace (any characters allowed — including
`:-`, which therefore has no default-value meaning); otherwise a special
variable is one character and a plain name is the longest alphanumeric
run. -/
def getShellName (s : List Char) : List Char × Nat :=
  match s with
  | [] => ([], 0)
  | c :: rest =>
    if c = '\x7b' then
      match rest with
      | r1 :: r2 :: _ =>
        if isShellSpecialVar r1 && r2 = '\x7d' then ([r1], 3)
        else scanBraceName rest
      | _ => scanBraceName rest
    else if isShellSpecialVar c then ([c], 1)
    else (s.takeWhile isAlphaNum, (s.takeWhile isAlphaNum).length)

/-- The scanning loop of Go's `os.Expand`, fuelled by the input length
(each step consumes at least one character, so `s.length` fuel always
suffices). -/
def expandLoop (mapping : List Char → List Char) :
    Nat → List Char → List Char
  | 0, s => s
  | _ + 1, [] => []
  | fuel + 1, c :: rest =>
    if c = '$' then
      match rest with
      | [] => ['$']
      | _ :: _ =>
        let nw := getShellName rest
        if nw.1.isEmpty && nw.2 > 0 then
          expandLoop mapping fuel (rest.drop nw.2)
        else if nw.1.isEmpty then
          '$' :: expandLoop mapping fuel rest
        else
          mapping nw.1 ++ expandLoop mapping fuel (rest.drop nw.2)
    else
      c :: expandLoop mapping fuel rest

/-- Go's `os.Expand`. -/
def osExpand (mapping : List Char → List Char) (s : List Char) : List Char :=
  expandLoop mapping s.length s

/-- Go's `os.ExpandEnv`: `os.Expand` with `os.Getenv` as the mapping —
and `os.Getenv` yields the empty string for every unset variable, so an
unresolved reference is replaced by nothing. -/
def expandEnvStr (env : String → Option String) (s : String) : String :=
  String.mk (osExpand (fun n => ((env (String.mk n)).getD "").data) s.data)

/-- The two error exits of `LoadConfig`: file read failure and YAML
parse failure. -/
inductive ConfigError where
  | readError (msg : String)
  | parseError (msg : String)
deriving Repr, DecidableEq

/-- `LoadConfig` from config.go: read the file, expand environment
references over the raw text, parse the result.  There is no other
step — in particular no unresolved-reference check and no invariant
validation.  `readResult` models `os.ReadFile`; `parse` models
`yaml.Unmarshal` (an external library). -/
def loadConfig (env : String → Option String)
    (readResult : Except String String)
    (parse : String → Except String Config) : Except ConfigError Config :=
  match readResult with
  | Except.error e => Except.error (ConfigError.readError
      ("failed to read config file: " ++ e))
  | Except.ok data =>
    match parse (expandEnvStr env data) with
    | Except.error e => Except.error (ConfigError.parseError
        ("failed to parse config: " ++ e))
    | Except.ok c => Except.ok c

/-! ### C4: environment expansion and unresolved references -/

/-- An environment with no variables set. -/
def emptyEnv : String → Option String := fun _ => none

/-- An environment defining only `NAME=val`. -/
def nameEnv : String → Option String :=
  fun n => if n = "NAME" then some "val" else none

/-- C4 refutation (code bug): `LoadConfig` expands with `os.ExpandEnv`,
which (i) gives `$\x7bNAME:-default\x7d` no default-value meaning — the
whole text between the braces is looked up verbatim as a variable name
(the repository's own example configs use
`$\x7bOPENAI_BASE_URL:-https://api.openai.com/v1\x7d`, which such a
lookup cannot resolve) — and (ii) replaces every unresolved reference
with the empty string instead of failing: loading succeeds whenever the
file is readable and the expanded text parses.  A set `$\x7bNAME\x7d`
does expand to its value. -/
theorem expandEnv_no_default_no_failure :
    expandEnvStr emptyEnv "$\x7bOPENAI_BASE_URL:-https://api.openai.com/v1\x7d"
      = "" ∧
    expandEnvStr emptyEnv "$\x7bNAME\x7d" = "" ∧
    expandEnvStr nameEnv "$\x7bNAME\x7d" = "val" ∧
    expandEnvStr nameEnv "$\x7bNAME:-default\x7d" = "" ∧
    loadConfig emptyEnv
      (Except.ok "base_url: $\x7bOPENAI_BASE_URL:-https://api.openai.com/v1\x7d")
      (fun _ => Except.ok (Config.mk [])) =
      Except.ok (Config.mk []) := by
  refine ⟨by decide, by decide, by decide, by decide, rfl⟩

/-! ### C5: configuration validation -/

/-- The provider kinds the spec admits. -/
def knownProviderKinds : List String :=
  ["bedrock", "azure", "openai", "anthropic", "vertex", "ibm", "oracle"]

/-- Comparator written from the spec's words (§3 invariants (a)–(e), as
far as the configuration shape can express them): protocol mode requires
a translation pair, transparent mode forbids one, the provider kind is
known, each path prefix is owned by exactly one instance. -/
def specConfigInvariants (c : Config) : Bool :=
  (c.instances.all fun p =>
    (p.2.mode != "protocol" || p.2.transformation.isSome) &&
    (p.2.mode != "transparent" || p.2.transformation.isNone) &&
    knownProviderKinds.contains p.2.type) &&
  (let allPaths := (c.instances.map fun p => p.2.endpoints.map (·.path)).flatten
   allPaths.all fun s => allPaths.count s == 1)

/-- C5 (amended): `LoadConfig` performs no invariant validation at all:
whatever configuration the YAML decoder produces is returned unchanged —
even one violating the spec's invariants — and no violation is ever
reported.  Loading fails only on a read or parse error. -/
theorem loadConfig_no_validation (env : String → Option String)
    (data : String) (parse : String → Except String Config) (c : Config)
    (hparse : parse (expandEnvStr env data) = Except.ok c)
    (_hviol : specConfigInvariants c = false) :
    loadConfig env (Except.ok data) parse = Except.ok c := by
  unfold loadConfig
  dsimp only
  rw [hparse]

/-- A configuration violating the spec invariants three ways: a
protocol-mode instance with no translation pair, an unknown provider
kind, and one path prefix owned by two instances. -/
def badConf : Config :=
  ⟨[("x", ⟨"frobnicate", "protocol", "openai", none, ⟨"api_key", "", ""⟩,
      [⟨"/openai/x", ["POST"]⟩], ⟨false⟩⟩),
    ("y", ⟨"openai", "transparent", "", none, ⟨"api_key", "", ""⟩,
      [⟨"/openai/x", ["POST"]⟩], ⟨false⟩⟩)]⟩

/-- C5 counterexample: `badConf` violates the spec invariants, yet a
load whose YAML decode yields it succeeds — nothing is rejected and no
violation is reported. -/
theorem loadConfig_accepts_invalid :
    specConfigInvariants badConf = false ∧
    loadConfig emptyEnv (Except.ok "instances: ...")
      (fun _ => Except.ok badConf) = Except.ok badConf :=
  ⟨by decide, rfl⟩

/-- Closed instantiation of `loadConfig_no_validation`. -/
theorem loadConfig_no_validation_witness :
    ((fun _ => Except.ok badConf :
        String → Except String Config)
      (expandEnvStr emptyEnv "instances: ...") = Except.ok badConf) ∧
    specConfigInvariants badConf = false ∧
    loadConfig emptyEnv (Except.ok "instances: ...")
      (fun _ => Except.ok badConf) = Except.ok badConf :=
  ⟨rfl, by decide, loadConfig_no_validation emptyEnv "instances: ..."
    (fun _ => Except.ok badConf) badConf rfl (by decide)⟩

end Gateway
